import Mathlib

/-!
Verification of a sliding-window reliable transport protocol:
a sender (`send.py`) that chunks a byte stream into checksummed
`Data` messages, tracks unacknowledged messages in an in-flight map,
estimates RTT, retransmits on timeout and adapts a congestion window;
and a receiver (`recv.py`) that validates checksums, suppresses
duplicates, buffers out-of-order messages and emits payloads to the
local sink strictly in id order, acknowledging every valid message.

Bytes (Python `ord` values) are modelled as `Nat`, wall-clock times and
RTT values as `ℚ`, and the Python dictionaries as association lists in
insertion order.  Fallible operations (the checksum of an empty chunk
raises in Python; JSON decoding can fail) return `Option`.
-/

/-- A wire message: `{"id": .., "type": "msg"|"ack", "data": .., "cs": ..}`.
Acknowledgments carry only `id` and `type`; decoding of raw datagrams is
modelled as `Option Msg`, with `none` for any datagram whose JSON parse
or required-field access fails. -/
structure Msg where
  id : Nat
  type : String
  data : List Nat
  cs : Nat
deriving DecidableEq

namespace Sender

/-- Sender-side checksum, `functools.reduce(lambda x,y:x+y, map(ord, st)) % 256`.
`reduce` with no initial element is undefined (raises `TypeError`) on an
empty sequence, hence the `Option`. -/
def checksum256 (st : List Nat) : Option Nat :=
  match st with
  | [] => none
  | x :: xs => some ((xs.foldl (fun a b => a + b) x) % 256)

end Sender

namespace Receiver

/-- Receiver-side checksum, textually identical to the sender's. -/
def checksum256 (st : List Nat) : Option Nat :=
  match st with
  | [] => none
  | x :: xs => some ((xs.foldl (fun a b => a + b) x) % 256)

end Receiver

/-- The sender's mutable state (`send.py` class attributes). -/
structure SState where
  id_generator : Nat
  window : Nat
  target_window : Nat
  last_msg_sent_time : ℚ
  msgs_waiting_ack : List (Nat × Msg)
  rtt : ℚ
  finished : Bool
  waiting : Bool
deriving DecidableEq

/-- EWMA coefficient `alpha = 0.875`. -/
def alpha : ℚ := 7 / 8

/-- Initial sender state: `window = 4`, `target_window = 16`, empty
in-flight map, `rtt = 0.5`. -/
def initSender : SState :=
  { id_generator := 0
    window := 4
    target_window := 16
    last_msg_sent_time := 0
    msgs_waiting_ack := []
    rtt := 1 / 2
    finished := false
    waiting := false }

/-- Membership test `msg["id"] in self.msgs_waiting_ack` on the
insertion-ordered in-flight map. -/
def lookupAck (l : List (Nat × Msg)) (i : Nat) : Option (Nat × Msg) :=
  l.find? (fun pm => pm.1 == i)

/-- `Sender.send_msg`: record the send time and raise the `waiting`
flag when the in-flight map has filled the window. -/
def send_msg (st : SState) (now : ℚ) : SState :=
  let st1 := { st with last_msg_sent_time := now }
  if st1.msgs_waiting_ack.length ≥ st1.window then { st1 with waiting := true } else st1

/-- The sender's stdin branch: a zero-length read marks the input
exhausted; otherwise the next id is assigned, a checksummed `Data`
message is built, inserted into the in-flight map and sent. -/
def readInput (st : SState) (data : List Nat) (now : ℚ) : SState :=
  if data.length = 0 then { st with finished := true }
  else
    match Sender.checksum256 data with
    | none => st
    | some c =>
      let i := st.id_generator + 1
      let m : Msg := { id := i, type := "msg", data := data, cs := c }
      let st1 := { st with id_generator := i,
                           msgs_waiting_ack := st.msgs_waiting_ack ++ [(i, m)] }
      send_msg st1 now

/-- The sender's socket branch on a successfully parsed message: pop the
id from the in-flight map when it is present and the type is `"ack"`,
then unconditionally clear `waiting` and update the RTT estimate
(`update_time_out`). -/
def handle_ack (st : SState) (mid : Nat) (mty : String) (now : ℚ) : SState :=
  let st1 :=
    if lookupAck st.msgs_waiting_ack mid ≠ none ∧ mty = "ack" then
      { st with msgs_waiting_ack := st.msgs_waiting_ack.filter (fun pm => pm.1 != mid) }
    else st
  let st2 := { st1 with waiting := false }
  { st2 with rtt := alpha * st2.rtt + (1 - alpha) * (now - st2.last_msg_sent_time) }

/-- `Sender.congestion_control`: additive growth while traffic flows
within the RTT bound, collapse to 1 (with a target decrement, floor 2)
on the congestion heuristic. -/
def congestion_control (st : SState) (now : ℚ) : SState :=
  let e := now - st.last_msg_sent_time
  if e < 7 / 4 * st.rtt then
    if st.window < st.target_window then { st with window := st.window + 1 } else st
  else if e > 7 / 4 * st.rtt ∧ 2 * st.window > st.target_window ∧
            st.msgs_waiting_ack.length + 3 > st.window then
    { st with window := 1,
              target_window := if st.target_window > 2 then st.target_window - 1
                               else st.target_window }
  else st

/-- The retransmission loop body: send each in-flight message in
insertion order, stopping once the counter reaches the window. -/
def retransmitLoop (st : SState) (msgs : List Msg) (i : Nat) (now : ℚ) : SState × List Msg :=
  match msgs with
  | [] => (st, [])
  | m :: rest =>
    let st1 := send_msg st now
    if st1.window ≤ i + 1 then (st1, [m])
    else
      let pr := retransmitLoop st1 rest (i + 1) now
      (pr.1, m :: pr.2)

/-- `Sender.retransmit_msgs`: when the time since the last send has
reached `1.75 × rtt`, resend up to `window` in-flight messages; the
returned list records the messages retransmitted on this tick. -/
def retransmit_msgs (st : SState) (now : ℚ) : SState × List Msg :=
  if now - st.last_msg_sent_time ≥ 7 / 4 * st.rtt then
    retransmitLoop st (st.msgs_waiting_ack.map (fun pm => pm.2)) 0 now
  else (st, [])

/-- Reachable sender states: any interleaving of submissions (gated by
the `waiting` and `finished` flags, exactly as the `select` call gates
stdin), ack processing, congestion adjustment and retransmission ticks
from the initial state. -/
inductive Reach : SState → Prop where
  | init : Reach initSender
  | submit {s : SState} (data : List Nat) (now : ℚ) :
      Reach s → s.waiting = false → s.finished = false → data ≠ [] →
      Reach (readInput s data now)
  | recv {s : SState} (mid : Nat) (mty : String) (now : ℚ) :
      Reach s → Reach (handle_ack s mid mty now)
  | cc {s : SState} (now : ℚ) :
      Reach s → Reach (congestion_control s now)
  | retrans {s : SState} (now : ℚ) :
      Reach s → Reach (retransmit_msgs s now).1

/-- The receiver's mutable state: the id up to which payloads have been
printed, the reassembly map in insertion order, and the bytes emitted to
the local sink so far. -/
structure RState where
  printed_id : Nat
  received_msgs : List Msg
  output : List Nat
deriving DecidableEq

/-- Initial receiver state. -/
def initReceiver : RState :=
  { printed_id := 0, received_msgs := [], output := [] }

/-- Lookup `i in self.received_msgs` in the reassembly map. -/
def rLookup (l : List Msg) (i : Nat) : Option Msg :=
  l.find? (fun m => m.id == i)

/-- Largest id in the reassembly map (0 when empty); only used as a
termination measure for the emission loop. -/
def maxId (l : List Msg) : Nat :=
  l.foldr (fun m a => max m.id a) 0

/-- The body of the receiver's emission loop, structurally recursive on
an explicit bound on the number of remaining iterations. -/
def printLoop (l : List Msg) (fuel : Nat) (pid : Nat) (out : List Nat) : Nat × List Nat :=
  match fuel with
  | 0 => (pid, out)
  | fuel + 1 =>
    match rLookup l (pid + 1) with
    | some m => printLoop l fuel (pid + 1) (out ++ m.data)
    | none => (pid, out)

/-- `Receiver.print_msgs`: while the next contiguous id is buffered,
advance the cursor and append that payload to the sink.  The loop runs
at most `maxId l + 1 - pid` times, since each iteration consumes a
strictly larger buffered id bounded by `maxId l`; with that much fuel
`printLoop` computes exactly the Python `while` loop. -/
def print_msgs (l : List Msg) (pid : Nat) (out : List Nat) : Nat × List Nat :=
  printLoop l (maxId l + 1 - pid) pid out

/-- The receiver's handling of a successfully decoded message: drop it
(no reply, no state change) when the checksum is undefined or does not
match `cs`; otherwise buffer it when new, advance the emission cursor,
and always reply with one acknowledgment carrying the same id.  The
second component lists the ids acknowledged. -/
def handle_msg (st : RState) (m : Msg) : RState × List Nat :=
  match Receiver.checksum256 m.data with
  | none => (st, [])
  | some c =>
    if m.cs ≠ c then (st, [])
    else
      let st1 :=
        if rLookup st.received_msgs m.id = none then
          let l2 := st.received_msgs ++ [m]
          let pr := print_msgs l2 st.printed_id st.output
          { printed_id := pr.1, received_msgs := l2, output := pr.2 }
        else st
      (st1, [m.id])

/-- One receiver loop iteration on a raw datagram, after decoding:
`none` is any datagram whose parse or field access raised, discarded
with no reply. -/
def handle_datagram (st : RState) (d : Option Msg) : RState × List Nat :=
  match d with
  | none => (st, [])
  | some m => handle_msg st m

/-- The (valid) `Data` message with id `i` and payload `p i`. -/
def mkMsg (p : Nat → List Nat) (i : Nat) : Msg :=
  { id := i, type := "msg", data := p i, cs := (p i).sum % 256 }

/-- Run the receiver over a whole arrival sequence of `Data` messages
with payload family `p`. -/
def runReceiver (p : Nat → List Nat) (arr : List Nat) : RState :=
  arr.foldl (fun st i => (handle_msg st (mkMsg p i)).1) initReceiver

/-- A one-byte `Data` message with id `k` and payload `"A"`. -/
def msgA (k : Nat) : Msg :=
  { id := k, type := "msg", data := [65], cs := 65 }

/-- A concrete sender state reached by four submissions from the
initial state: the window (4) is full and `waiting` is set. -/
def exState : SState :=
  readInput (readInput (readInput (readInput initSender [65] 0) [65] 0) [65] 0) [65] 0

/-- A concrete sender run: five congestion-growth ticks (window 4 → 9),
seven submissions, then one congestion-collapse tick at time 1.
Afterwards seven messages are in flight but the window is 1. -/
def badState : SState :=
  congestion_control
    (readInput (readInput (readInput (readInput (readInput (readInput (readInput
      (congestion_control (congestion_control (congestion_control (congestion_control
        (congestion_control initSender 0) 0) 0) 0) 0)
      [65] 0) [65] 0) [65] 0) [65] 0) [65] 0) [65] 0) [65] 0) 1

/-- The invariant maintained by the receiver while processing valid
`Data` messages with payload family `p` and ids drawn from `1..N`,
`seen` being the ids that have arrived so far: every buffered message is
the genuine message for its id and has arrived; every arrived id is
buffered; the sink holds exactly the payloads `1..printed_id` in order;
the next expected id is not buffered; and every printed id is
buffered. -/
def RInv (p : Nat → List Nat) (N : Nat) (seen : List Nat) (st : RState) : Prop :=
  (∀ m ∈ st.received_msgs, m = mkMsg p m.id ∧ 1 ≤ m.id ∧ m.id ≤ N ∧ m.id ∈ seen) ∧
  (∀ i ∈ seen, rLookup st.received_msgs i ≠ none) ∧
  (st.output = ((List.range st.printed_id).map (fun k => p (k + 1))).flatten) ∧
  (rLookup st.received_msgs (st.printed_id + 1) = none) ∧
  (∀ j, 1 ≤ j → j ≤ st.printed_id → rLookup st.received_msgs j ≠ none)

/-! ### Basic lemmas about the association-list lookups -/

theorem mem_id_le_maxId {l : List Msg} {m : Msg} (hm : m ∈ l) : m.id ≤ maxId l := by
  induction l with
  | nil => cases hm
  | cons x xs ih =>
    rcases List.mem_cons.mp hm with h | h
    · subst h; exact Nat.le_max_left _ _
    · exact Nat.le_trans (ih h) (Nat.le_max_right _ _)

theorem rLookup_eq_some {l : List Msg} {i : Nat} {m : Msg}
    (h : rLookup l i = some m) : m ∈ l ∧ m.id = i := by
  have hmem := List.mem_of_find?_eq_some h
  have hp := List.find?_some h
  exact ⟨hmem, by simpa using hp⟩

theorem rLookup_none_of_maxId_lt {l : List Msg} {i : Nat} (h : maxId l < i) :
    rLookup l i = none := by
  cases hl : rLookup l i with
  | none => rfl
  | some m =>
    obtain ⟨hm, hid⟩ := rLookup_eq_some hl
    exact absurd (hid ▸ mem_id_le_maxId hm) (Nat.not_le_of_lt h)

theorem rLookup_append {l : List Msg} {m : Msg} (i : Nat) :
    rLookup (l ++ [m]) i =
      match rLookup l i with
      | some x => some x
      | none => if m.id = i then some m else none := by
  induction l with
  | nil =>
    simp only [List.nil_append, rLookup, List.find?]
    by_cases h : m.id = i
    · simp [h]
    · simp [h, (by simpa using h : (m.id == i) = false)]
  | cons x xs ih =>
    simp only [List.cons_append, rLookup, List.find?] at *
    cases hx : (x.id == i) with
    | true => simp
    | false => simpa [hx] using ih

theorem rLookup_append_of_none {l : List Msg} {m : Msg} {i : Nat}
    (h : rLookup l i = none) :
    rLookup (l ++ [m]) i = if m.id = i then some m else none := by
  rw [rLookup_append, h]

theorem rLookup_append_of_some {l : List Msg} {m x : Msg} {i : Nat}
    (h : rLookup l i = some x) :
    rLookup (l ++ [m]) i = some x := by
  rw [rLookup_append, h]

/-! ### The checksum function -/

theorem foldl_add_eq_sum (xs : List Nat) (x : Nat) :
    xs.foldl (fun a b => a + b) x = x + xs.sum := by
  induction xs generalizing x with
  | nil => simp
  | cons y ys ih => simp [ih, List.sum_cons]; ring

theorem sender_checksum_eq_sum {b : List Nat} (hb : b ≠ []) :
    Sender.checksum256 b = some (b.sum % 256) := by
  cases b with
  | nil => exact absurd rfl hb
  | cons x xs => simp [Sender.checksum256, foldl_add_eq_sum, List.sum_cons]

theorem receiver_checksum_eq_sender (b : List Nat) :
    Receiver.checksum256 b = Sender.checksum256 b := by
  cases b <;> rfl

/-! ### C9 — the checksum function (corrected: the reduce has no initial
element, so the checksum is undefined on the empty chunk) -/

/-- C9 (counterexample to the claim as stated): on the empty byte chunk
neither checksum function produces any value at all — Python's
`functools.reduce` with no initial element raises — so no result in
`[0, 255]` exists for `b = []`. -/
theorem checksum_empty_undefined :
    Sender.checksum256 [] = none ∧ Receiver.checksum256 [] = none :=
  ⟨rfl, rfl⟩

/-- C9 (amended): for every nonempty byte chunk `b` the checksum is
defined, equals the sum of the byte values of `b` modulo 256 (hence lies
in `[0, 255]`), and the sender's and receiver's checksum functions agree
on `b`. -/
theorem checksum_spec (b : List Nat) (hb : b ≠ []) :
    Sender.checksum256 b = some (b.sum % 256) ∧ b.sum % 256 < 256 ∧
    Receiver.checksum256 b = Sender.checksum256 b :=
  ⟨sender_checksum_eq_sum hb, Nat.mod_lt _ (by norm_num),
   receiver_checksum_eq_sender b⟩

/-- C9 witness: the amended claim evaluated on the chunk `[3, 250, 7]`. -/
theorem checksum_spec_witness :
    ([3, 250, 7] : List Nat) ≠ [] ∧
    (Sender.checksum256 [3, 250, 7] = some (([3, 250, 7] : List Nat).sum % 256) ∧
     ([3, 250, 7] : List Nat).sum % 256 < 256 ∧
     Receiver.checksum256 [3, 250, 7] = Sender.checksum256 [3, 250, 7]) :=
  ⟨by decide, checksum_spec [3, 250, 7] (by decide)⟩

/-! ### C4 — any processed acknowledgment clears `blocked_on_window` -/

/-- C4: after the sender processes any received acknowledgment —
whatever its id, whether or not it is in flight, and whether or not it
freed window capacity — the `waiting` (`blocked_on_window`) flag is
false: `self.waiting = False` runs unconditionally after the pop. -/
theorem ack_clears_waiting (st : SState) (mid : Nat) (mty : String) (now : ℚ) :
    (handle_ack st mid mty now).waiting = false := rfl

/-! ### C3 — acknowledgments for unknown ids (corrected: the in-flight
map, window and target are untouched, but the code still clears
`waiting` and still runs the EWMA RTT update for such acks) -/

/-- C3 (counterexample to the claim as stated): in the concrete state
reached by four submissions, processing an acknowledgment whose id (99)
is not in flight changes both `waiting` (the claim's
`blocked_on_window`) and `rtt` (the claim's `smoothed_rtt`). -/
theorem unknown_ack_changes_state :
    lookupAck exState.msgs_waiting_ack 99 = none ∧
    (handle_ack exState 99 "ack" 1).waiting ≠ exState.waiting ∧
    (handle_ack exState 99 "ack" 1).rtt ≠ exState.rtt := by
  refine ⟨by decide, by decide, ?_⟩
  norm_num [handle_ack, exState, readInput, send_msg, initSender,
    Sender.checksum256, lookupAck, alpha]

/-- C3 (amended): an acknowledgment whose id is not in flight leaves the
in-flight map, `window` and `target_window` unchanged (so processing it
any number of times removes nothing), but — exactly as for any received
message — it clears `waiting` and replaces `rtt` by the EWMA update
`alpha * rtt + (1 - alpha) * (now - last_msg_sent_time)`. -/
theorem unknown_ack_effect (st : SState) (mid : Nat) (mty : String) (now : ℚ)
    (h : lookupAck st.msgs_waiting_ack mid = none) :
    handle_ack st mid mty now =
      { st with waiting := false,
                rtt := alpha * st.rtt + (1 - alpha) * (now - st.last_msg_sent_time) } := by
  unfold handle_ack
  rw [if_neg (fun hc => hc.1 h)]

/-- C3 witness: the amended claim evaluated at the initial sender state
and an acknowledgment for the never-assigned id 5. -/
theorem unknown_ack_effect_witness :
    lookupAck initSender.msgs_waiting_ack 5 = none ∧
    handle_ack initSender 5 "ack" 1 =
      { initSender with
          waiting := false,
          rtt := alpha * initSender.rtt +
                 (1 - alpha) * (1 - initSender.last_msg_sent_time) } :=
  ⟨by decide, unknown_ack_effect initSender 5 "ack" 1 (by decide)⟩

/-! ### C5 — corrupt datagrams are discarded without reply or state
change -/

/-- C5: a datagram that fails to decode (`none`: malformed JSON, missing
field, or wrong field type) produces no reply and leaves the receiver
state — reassembly map and cursor — unchanged; likewise a decoded `Data`
message whose checksum does not match its payload (including the case
where the checksum is undefined).  `handle_datagram` is a total function
of its input, so neither condition is fatal. -/
theorem corrupt_datagram_discarded (st : RState) (m : Msg)
    (hm : Receiver.checksum256 m.data ≠ some m.cs) :
    handle_datagram st none = (st, []) ∧ handle_datagram st (some m) = (st, []) := by
  refine ⟨rfl, ?_⟩
  unfold handle_datagram handle_msg
  cases hc : Receiver.checksum256 m.data with
  | none => simp [hc]
  | some c =>
    have hne : m.cs ≠ c := fun he => hm (by rw [hc, he])
    simp [hc, hne]

/-- C5 witness: a `Data` message whose `cs` field (5) disagrees with the
checksum of its payload `[1]` is discarded at the initial receiver
state. -/
theorem corrupt_datagram_discarded_witness :
    Receiver.checksum256 ([1] : List Nat) ≠ some 5 ∧
    (handle_datagram initReceiver none = (initReceiver, []) ∧
     handle_datagram initReceiver (some { id := 1, type := "msg", data := [1], cs := 5 }) =
       (initReceiver, [])) :=
  ⟨by decide, corrupt_datagram_discarded initReceiver _ (by decide)⟩

/-! ### C8 — every valid `Data` message is acknowledged exactly once -/

/-- C8: a decoded message whose checksum matches its payload is answered
with exactly one acknowledgment carrying the same id, whatever the
receiver state — in particular both when the id is new and when it is
already buffered (a duplicate). -/
theorem valid_data_acked (st : RState) (m : Msg)
    (hm : Receiver.checksum256 m.data = some m.cs) :
    (handle_datagram st (some m)).2 = [m.id] := by
  unfold handle_datagram handle_msg
  simp [hm]

/-- C8 witness: the message `{id := 1, data := [2, 3], cs := 5}` is
acknowledged with `[1]` at a state where id 1 is already buffered (the
state after first delivery of the same message), i.e. the duplicate is
re-acknowledged. -/
theorem valid_data_acked_witness :
    Receiver.checksum256 ([2, 3] : List Nat) =
      some (Msg.cs { id := 1, type := "msg", data := [2, 3], cs := 5 }) ∧
    (handle_datagram
        (handle_msg initReceiver { id := 1, type := "msg", data := [2, 3], cs := 5 }).1
        (some { id := 1, type := "msg", data := [2, 3], cs := 5 })).2 = [1] :=
  ⟨by decide, valid_data_acked _ _ (by decide)⟩

/-! ### Preservation lemmas for the sender operations -/

@[simp] theorem send_msg_window (st : SState) (now : ℚ) :
    (send_msg st now).window = st.window := by
  simp only [send_msg]; split <;> rfl

@[simp] theorem send_msg_target (st : SState) (now : ℚ) :
    (send_msg st now).target_window = st.target_window := by
  simp only [send_msg]; split <;> rfl

@[simp] theorem send_msg_map (st : SState) (now : ℚ) :
    (send_msg st now).msgs_waiting_ack = st.msgs_waiting_ack := by
  simp only [send_msg]; split <;> rfl

@[simp] theorem send_msg_last (st : SState) (now : ℚ) :
    (send_msg st now).last_msg_sent_time = now := by
  simp only [send_msg]; split <;> rfl

theorem readInput_window (st : SState) (data : List Nat) (now : ℚ) :
    (readInput st data now).window = st.window := by
  unfold readInput
  split
  · rfl
  · cases Sender.checksum256 data <;> simp

theorem readInput_target (st : SState) (data : List Nat) (now : ℚ) :
    (readInput st data now).target_window = st.target_window := by
  unfold readInput
  split
  · rfl
  · cases Sender.checksum256 data <;> simp

theorem handle_ack_window (st : SState) (mid : Nat) (mty : String) (now : ℚ) :
    (handle_ack st mid mty now).window = st.window := by
  simp only [handle_ack]; split <;> rfl

theorem handle_ack_target (st : SState) (mid : Nat) (mty : String) (now : ℚ) :
    (handle_ack st mid mty now).target_window = st.target_window := by
  simp only [handle_ack]; split <;> rfl

theorem handle_ack_map_mem {st : SState} {mid : Nat} {mty : String} {now : ℚ}
    {pm : Nat × Msg} (h : pm ∈ (handle_ack st mid mty now).msgs_waiting_ack) :
    pm ∈ st.msgs_waiting_ack := by
  simp only [handle_ack] at h
  split at h
  · exact List.mem_of_mem_filter h
  · exact h

theorem congestion_control_map (st : SState) (now : ℚ) :
    (congestion_control st now).msgs_waiting_ack = st.msgs_waiting_ack := by
  simp only [congestion_control]; split_ifs <;> rfl

theorem retransmitLoop_state (msgs : List Msg) (st : SState) (i : Nat) (now : ℚ) :
    (retransmitLoop st msgs i now).1.window = st.window ∧
    (retransmitLoop st msgs i now).1.target_window = st.target_window ∧
    (retransmitLoop st msgs i now).1.msgs_waiting_ack = st.msgs_waiting_ack := by
  induction msgs generalizing st i with
  | nil => exact ⟨rfl, rfl, rfl⟩
  | cons m rest ih =>
    simp only [retransmitLoop]
    split
    · simp
    · obtain ⟨h1, h2, h3⟩ := ih (send_msg st now) (i + 1)
      simp [h1, h2, h3]

theorem retransmit_window (st : SState) (now : ℚ) :
    (retransmit_msgs st now).1.window = st.window := by
  unfold retransmit_msgs
  split
  · exact (retransmitLoop_state _ _ _ _).1
  · rfl

theorem retransmit_target (st : SState) (now : ℚ) :
    (retransmit_msgs st now).1.target_window = st.target_window := by
  unfold retransmit_msgs
  split
  · exact (retransmitLoop_state _ _ _ _).2.1
  · rfl

theorem retransmit_map (st : SState) (now : ℚ) :
    (retransmit_msgs st now).1.msgs_waiting_ack = st.msgs_waiting_ack := by
  unfold retransmit_msgs
  split
  · exact (retransmitLoop_state _ _ _ _).2.2
  · rfl

/-! ### The sender window invariant (C1) -/

theorem reach_window_inv {s : SState} (hs : Reach s) :
    2 ≤ s.target_window ∧ s.window ≤ s.target_window := by
  induction hs with
  | init => constructor <;> norm_num [initSender]
  | submit data now hr hw hf hd ih =>
    rw [readInput_window, readInput_target]; exact ih
  | recv mid mty now hr ih =>
    rw [handle_ack_window, handle_ack_target]; exact ih
  | cc now hr ih =>
    obtain ⟨h2, hwt⟩ := ih
    simp only [congestion_control]
    split_ifs <;> simp_all <;> omega
  | retrans now hr ih =>
    rw [retransmit_window, retransmit_target]; exact ih

/-! ### C1 — window bounds over reachable sender states (corrected:
`window ≤ target_window` always holds, but `len(in_flight) ≤ window`
does not) -/

theorem congestion_collapse_eval (st : SState) (now : ℚ)
    (h1 : ¬ now - st.last_msg_sent_time < 7 / 4 * st.rtt)
    (h2 : now - st.last_msg_sent_time > 7 / 4 * st.rtt)
    (h3 : 2 * st.window > st.target_window)
    (h4 : st.msgs_waiting_ack.length + 3 > st.window) :
    (congestion_control st now).window = 1 := by
  unfold congestion_control
  rw [if_neg h1, if_pos ⟨h2, h3, h4⟩]

/-- C1 (counterexample to the claim as stated): a reachable sender
state violating `len(in_flight) ≤ window`.  Five congestion-growth
ticks raise the window from 4 to 9, seven chunks are submitted (each
under the window, so the `waiting` gate stays down), and one
congestion-collapse tick at time 1 sets `window = 1` while all seven
messages remain in flight. -/
theorem window_bound_violated :
    Reach badState ∧ ¬ badState.msgs_waiting_ack.length ≤ badState.window := by
  have hcc5 : congestion_control (congestion_control (congestion_control
      (congestion_control (congestion_control initSender 0) 0) 0) 0) 0 =
      { initSender with window := 9 } := by
    norm_num [congestion_control, initSender]
  constructor
  · unfold badState
    rw [hcc5]
    have r5 : Reach { initSender with window := 9 } :=
      hcc5 ▸ Reach.cc 0 (Reach.cc 0 (Reach.cc 0 (Reach.cc 0 (Reach.cc 0 Reach.init))))
    exact Reach.cc 1
      (Reach.submit [65] 0
        (Reach.submit [65] 0
          (Reach.submit [65] 0
            (Reach.submit [65] 0
              (Reach.submit [65] 0
                (Reach.submit [65] 0
                  (Reach.submit [65] 0 r5 (by decide) (by decide) (by decide))
                  (by decide) (by decide) (by decide))
                (by decide) (by decide) (by decide))
              (by decide) (by decide) (by decide))
            (by decide) (by decide) (by decide))
          (by decide) (by decide) (by decide))
        (by decide) (by decide) (by decide))
  · unfold badState
    rw [hcc5, congestion_control_map, congestion_collapse_eval]
    · decide
    · show ¬ ((1 : ℚ) - 0 < 7 / 4 * (1 / 2))
      norm_num
    · show (1 : ℚ) - 0 > 7 / 4 * (1 / 2)
      norm_num
    · decide
    · decide

/-- C1 (amended): over all reachable sender states the second conjunct
of the claim holds — `window` never exceeds `target_window` — while the
first conjunct `len(in_flight) ≤ window` is refuted by the reachable
state of `window_bound_violated`. -/
theorem reach_window_le_target (s : SState) (hs : Reach s) :
    s.window ≤ s.target_window :=
  (reach_window_inv hs).2

/-- C1 witness: the amended bound at the initial state. -/
theorem reach_window_le_target_witness :
    initSender.window ≤ initSender.target_window :=
  reach_window_le_target initSender Reach.init

/-! ### C10 — empty payloads: corrupt on receipt, never constructed -/

theorem reach_inflight_data_ne_nil {s : SState} (hs : Reach s) :
    ∀ pm ∈ s.msgs_waiting_ack, pm.2.data ≠ [] := by
  induction hs with
  | init => intro pm hpm; simp [initSender] at hpm
  | submit data now hr hw hf hd ih =>
    intro pm hpm
    have hlen : ¬ data.length = 0 := by
      simpa [List.length_eq_zero] using hd
    rw [readInput, if_neg hlen] at hpm
    cases hc : Sender.checksum256 data with
    | none => rw [hc] at hpm; exact ih pm hpm
    | some c =>
      rw [hc] at hpm
      rw [send_msg_map] at hpm
      rcases List.mem_append.mp hpm with h | h
      · exact ih pm h
      · rw [List.mem_singleton] at h
        subst h
        exact hd
  | recv mid mty now hr ih =>
    intro pm hpm
    exact ih pm (handle_ack_map_mem hpm)
  | cc now hr ih =>
    intro pm hpm
    rw [congestion_control_map] at hpm
    exact ih pm hpm
  | retrans now hr ih =>
    intro pm hpm
    rw [retransmit_map] at hpm
    exact ih pm hpm

/-- C10: the checksum is undefined on the empty chunk, so any received
`Data` message with empty payload is discarded as corrupt — no
acknowledgment, no state change — whatever its `cs` field; and on the
sender side a zero-length read only marks the input exhausted (no
message is built), so no reachable sender state holds an in-flight
message with empty payload. -/
theorem empty_payload_corrupt (st : RState) (i : Nat) (ty : String) (c : Nat)
    (s : SState) (hs : Reach s) (now : ℚ) :
    handle_datagram st (some { id := i, type := ty, data := [], cs := c }) = (st, []) ∧
    readInput s [] now = { s with finished := true } ∧
    ∀ pm ∈ s.msgs_waiting_ack, pm.2.data ≠ [] :=
  ⟨rfl, rfl, reach_inflight_data_ne_nil hs⟩

/-- C10 witness: the empty-payload discard at the initial receiver
state, and the sender-side invariant at the initial sender state. -/
theorem empty_payload_corrupt_witness :
    handle_datagram initReceiver
        (some { id := 1, type := "msg", data := [], cs := 0 }) = (initReceiver, []) ∧
    readInput initSender [] 0 = { initSender with finished := true } ∧
    ∀ pm ∈ initSender.msgs_waiting_ack, pm.2.data ≠ [] :=
  empty_payload_corrupt initReceiver 1 "msg" 0 initSender Reach.init 0

/-! ### C6 — timeout-triggered batch retransmission -/

theorem retransmitLoop_spec (msgs : List Msg) (st : SState) (i : Nat) (now : ℚ)
    (hi : i < st.window) :
    (retransmitLoop st msgs i now).2 = msgs.take (st.window - i) ∧
    (msgs ≠ [] → (retransmitLoop st msgs i now).1.last_msg_sent_time = now) := by
  induction msgs generalizing st i with
  | nil => simp [retransmitLoop]
  | cons m rest ih =>
    simp only [retransmitLoop]
    by_cases hw : (send_msg st now).window ≤ i + 1
    · rw [if_pos hw]
      rw [send_msg_window] at hw
      have h1 : st.window - i = 1 := by omega
      exact ⟨by rw [h1, List.take_succ_cons, List.take_zero], fun _ => send_msg_last st now⟩
    · rw [if_neg hw]
      rw [send_msg_window] at hw
      obtain ⟨h1, h2⟩ := ih (send_msg st now) (i + 1) (by rw [send_msg_window]; omega)
      rw [send_msg_window] at h1
      constructor
      · show m :: (retransmitLoop (send_msg st now) rest (i + 1) now).2 = _
        rw [h1]
        have h3 : st.window - i = (st.window - (i + 1)) + 1 := by omega
        rw [h3, List.take_succ_cons]
      · intro _
        cases rest with
        | nil => simp [retransmitLoop, send_msg_last]
        | cons r rs =>
          show (retransmitLoop (send_msg st now) (r :: rs) (i + 1) now).1.last_msg_sent_time = now
          exact h2 (by simp)

/-- C6: on a tick where the elapsed time since `last_msg_sent_time` has
reached `1.75 × rtt`, the sender retransmits exactly the first
`window` in-flight messages in the map's insertion order — that is,
`min window len(in_flight)` messages — and the tick's send time is
recorded whenever at least one message was retransmitted; on a tick
below the bound nothing is retransmitted and the state is untouched.
(The hypothesis `1 ≤ window` holds at every reachable state, the window
being collapsed to 1, never 0.) -/
theorem retransmit_spec (st : SState) (now : ℚ) (hw : 1 ≤ st.window) :
    (now - st.last_msg_sent_time ≥ 7 / 4 * st.rtt →
      (retransmit_msgs st now).2 =
        (st.msgs_waiting_ack.map (fun pm => pm.2)).take st.window ∧
      (retransmit_msgs st now).2.length = min st.window st.msgs_waiting_ack.length ∧
      (st.msgs_waiting_ack ≠ [] →
        (retransmit_msgs st now).1.last_msg_sent_time = now)) ∧
    (now - st.last_msg_sent_time < 7 / 4 * st.rtt →
      retransmit_msgs st now = (st, [])) := by
  constructor
  · intro he
    unfold retransmit_msgs
    rw [if_pos he]
    obtain ⟨h1, h2⟩ :=
      retransmitLoop_spec (st.msgs_waiting_ack.map (fun pm => pm.2)) st 0 now (by omega)
    rw [Nat.sub_zero] at h1
    refine ⟨h1, ?_, ?_⟩
    · rw [h1, List.length_take, List.length_map]
    · intro hne
      exact h2 (by simpa using hne)
  · intro hlt
    unfold retransmit_msgs
    rw [if_neg (not_le.mpr hlt)]

/-- C6 witness: the retransmission contract evaluated at the concrete
full-window state `exState` (four in-flight messages, window 4) on a
tick at time 1 (elapsed 1 ≥ 1.75 × 0.5). -/
theorem retransmit_spec_witness :
    1 ≤ exState.window ∧
    ((1 - exState.last_msg_sent_time ≥ 7 / 4 * exState.rtt →
       (retransmit_msgs exState 1).2 =
         (exState.msgs_waiting_ack.map (fun pm => pm.2)).take exState.window ∧
       (retransmit_msgs exState 1).2.length =
         min exState.window exState.msgs_waiting_ack.length ∧
       (exState.msgs_waiting_ack ≠ [] →
         (retransmit_msgs exState 1).1.last_msg_sent_time = 1)) ∧
     (1 - exState.last_msg_sent_time < 7 / 4 * exState.rtt →
       retransmit_msgs exState 1 = (exState, []))) :=
  ⟨by decide, retransmit_spec exState 1 (by decide)⟩

/-! ### C7 — the congestion-control tick -/

/-- C7: on every tick, if the elapsed time since the last send is below
`1.75 × rtt` the window grows by exactly 1 unless it already equals the
target (cap); if it exceeds the bound and the two congestion heuristics
hold, the window collapses to 1 and the target drops by exactly 1
unless already at its floor of 2; in every remaining case (including
elapsed time exactly equal to the bound) both are unchanged.  The
hypotheses restate the C1 invariant `window ≤ target_window` and the
floor `2 ≤ target_window`, which hold at every reachable state. -/
theorem congestion_control_spec (st : SState) (now : ℚ)
    (hwt : st.window ≤ st.target_window) (_ht2 : 2 ≤ st.target_window) :
    (now - st.last_msg_sent_time < 7 / 4 * st.rtt →
      (st.window ≠ st.target_window →
        congestion_control st now = { st with window := st.window + 1 }) ∧
      (st.window = st.target_window → congestion_control st now = st)) ∧
    (now - st.last_msg_sent_time > 7 / 4 * st.rtt →
      2 * st.window > st.target_window →
      st.msgs_waiting_ack.length + 3 > st.window →
      (2 < st.target_window →
        congestion_control st now =
          { st with window := 1, target_window := st.target_window - 1 }) ∧
      (st.target_window = 2 → congestion_control st now = { st with window := 1 })) ∧
    (¬ now - st.last_msg_sent_time < 7 / 4 * st.rtt →
      ¬ (now - st.last_msg_sent_time > 7 / 4 * st.rtt ∧
         2 * st.window > st.target_window ∧
         st.msgs_waiting_ack.length + 3 > st.window) →
      congestion_control st now = st) := by
  refine ⟨fun hlt => ⟨fun hne => ?_, fun heq => ?_⟩,
          fun hgt h3 h4 => ⟨fun h2lt => ?_, fun heq2 => ?_⟩,
          fun h1 h2 => ?_⟩
  · unfold congestion_control
    rw [if_pos hlt, if_pos (lt_of_le_of_ne hwt hne)]
  · unfold congestion_control
    rw [if_pos hlt, if_neg (by omega)]
  · unfold congestion_control
    rw [if_neg (not_lt.mpr (le_of_lt hgt)), if_pos ⟨hgt, h3, h4⟩, if_pos h2lt]
  · unfold congestion_control
    rw [if_neg (not_lt.mpr (le_of_lt hgt)), if_pos ⟨hgt, h3, h4⟩, if_neg (by omega)]
  · unfold congestion_control
    rw [if_neg h1, if_neg h2]

/-- C7 witness: the congestion-control contract evaluated at the
initial state on a tick at time 0 (elapsed 0 < 1.75 × 0.5, growth
branch applies: window 4 → 5). -/
theorem congestion_control_spec_witness :
    initSender.window ≤ initSender.target_window ∧
    2 ≤ initSender.target_window ∧
    ((0 - initSender.last_msg_sent_time < 7 / 4 * initSender.rtt →
       (initSender.window ≠ initSender.target_window →
         congestion_control initSender 0 = { initSender with window := initSender.window + 1 }) ∧
       (initSender.window = initSender.target_window →
         congestion_control initSender 0 = initSender)) ∧
     (0 - initSender.last_msg_sent_time > 7 / 4 * initSender.rtt →
       2 * initSender.window > initSender.target_window →
       initSender.msgs_waiting_ack.length + 3 > initSender.window →
       (2 < initSender.target_window →
         congestion_control initSender 0 =
           { initSender with window := 1, target_window := initSender.target_window - 1 }) ∧
       (initSender.target_window = 2 →
         congestion_control initSender 0 = { initSender with window := 1 })) ∧
     (¬ 0 - initSender.last_msg_sent_time < 7 / 4 * initSender.rtt →
       ¬ (0 - initSender.last_msg_sent_time > 7 / 4 * initSender.rtt ∧
          2 * initSender.window > initSender.target_window ∧
          initSender.msgs_waiting_ack.length + 3 > initSender.window) →
       congestion_control initSender 0 = initSender)) :=
  ⟨by decide, by decide, congestion_control_spec initSender 0 (by decide) (by decide)⟩

/-! ### C2 — ordered exactly-once emission under arbitrary arrival
orders -/

theorem printLoop_spec (p : Nat → List Nat) (l : List Msg)
    (hl : ∀ m ∈ l, m = mkMsg p m.id) :
    ∀ (fuel pid : Nat) (out : List Nat),
      maxId l + 1 - pid ≤ fuel →
      out = ((List.range pid).map (fun k => p (k + 1))).flatten →
      pid ≤ (printLoop l fuel pid out).1 ∧
      (printLoop l fuel pid out).2 =
        ((List.range (printLoop l fuel pid out).1).map (fun k => p (k + 1))).flatten ∧
      rLookup l ((printLoop l fuel pid out).1 + 1) = none ∧
      (∀ j, pid < j → j ≤ (printLoop l fuel pid out).1 → rLookup l j ≠ none) := by
  intro fuel
  induction fuel with
  | zero =>
    intro pid out hfuel hout
    have hmax : maxId l < pid + 1 := by omega
    simp only [printLoop]
    exact ⟨Nat.le_refl _, hout, rLookup_none_of_maxId_lt hmax,
      fun j hj1 hj2 => absurd (Nat.lt_of_lt_of_le hj1 hj2) (lt_irrefl _)⟩
  | succ fuel ih =>
    intro pid out hfuel hout
    cases hc : rLookup l (pid + 1) with
    | none =>
      have hred : printLoop l (fuel + 1) pid out = (pid, out) := by
        simp only [printLoop, hc]
      rw [hred]
      exact ⟨Nat.le_refl _, hout, hc,
        fun j hj1 hj2 => absurd (Nat.lt_of_lt_of_le hj1 hj2) (lt_irrefl _)⟩
    | some m =>
      have hred : printLoop l (fuel + 1) pid out =
          printLoop l fuel (pid + 1) (out ++ m.data) := by
        simp only [printLoop, hc]
      rw [hred]
      obtain ⟨hm_mem, hm_id⟩ := rLookup_eq_some hc
      have hm2 := hl m hm_mem
      have hdata : m.data = p (pid + 1) := by
        rw [hm2, hm_id, mkMsg]
      have hout2 : out ++ m.data =
          ((List.range (pid + 1)).map (fun k => p (k + 1))).flatten := by
        rw [hout, hdata, List.range_succ, List.map_append, List.flatten_append]
        simp
      have hfuel2 : maxId l + 1 - (pid + 1) ≤ fuel := by
        have hle : pid + 1 ≤ maxId l := hm_id ▸ mem_id_le_maxId hm_mem
        omega
      obtain ⟨ih1, ih2, ih3, ih4⟩ := ih (pid + 1) (out ++ m.data) hfuel2 hout2
      refine ⟨Nat.le_trans (Nat.le_succ pid) ih1, ih2, ih3, ?_⟩
      intro j hj1 hj2
      by_cases hj : j = pid + 1
      · rw [hj, hc]; exact fun hx => Option.noConfusion hx
      · exact ih4 j (by omega) hj2

theorem print_msgs_spec (p : Nat → List Nat) (l : List Msg) (pid : Nat) (out : List Nat)
    (hl : ∀ m ∈ l, m = mkMsg p m.id)
    (hout : out = ((List.range pid).map (fun k => p (k + 1))).flatten) :
    pid ≤ (print_msgs l pid out).1 ∧
    (print_msgs l pid out).2 =
      ((List.range (print_msgs l pid out).1).map (fun k => p (k + 1))).flatten ∧
    rLookup l ((print_msgs l pid out).1 + 1) = none ∧
    (∀ j, pid < j → j ≤ (print_msgs l pid out).1 → rLookup l j ≠ none) :=
  printLoop_spec p l hl (maxId l + 1 - pid) pid out (Nat.le_refl _) hout

theorem handle_msg_valid (st : RState) (m : Msg)
    (hm : Receiver.checksum256 m.data = some m.cs) :
    (handle_msg st m).1 =
      if rLookup st.received_msgs m.id = none then
        { printed_id := (print_msgs (st.received_msgs ++ [m]) st.printed_id st.output).1,
          received_msgs := st.received_msgs ++ [m],
          output := (print_msgs (st.received_msgs ++ [m]) st.printed_id st.output).2 }
      else st := by
  unfold handle_msg
  simp [hm]

theorem RInv_step (p : Nat → List Nat) (N : Nat) (seen : List Nat) (st : RState) (i : Nat)
    (hInv : RInv p N seen st) (hi1 : 1 ≤ i) (hiN : i ≤ N) (hpi : p i ≠ []) :
    RInv p N (seen ++ [i]) (handle_msg st (mkMsg p i)).1 := by
  obtain ⟨ha, hb, hc, hd, he⟩ := hInv
  have hvalid : Receiver.checksum256 (mkMsg p i).data = some (mkMsg p i).cs := by
    show Receiver.checksum256 (p i) = some ((p i).sum % 256)
    rw [receiver_checksum_eq_sender]
    exact sender_checksum_eq_sum hpi
  rw [handle_msg_valid st _ hvalid]
  have hid : (mkMsg p i).id = i := rfl
  by_cases hnew : rLookup st.received_msgs (mkMsg p i).id = none
  · rw [if_pos hnew]
    rw [hid] at hnew
    have hl2 : ∀ x ∈ st.received_msgs ++ [mkMsg p i], x = mkMsg p x.id := by
      intro x hx
      rcases List.mem_append.mp hx with h | h
      · exact (ha x h).1
      · rw [List.mem_singleton] at h
        subst h
        rfl
    obtain ⟨hp1, hp2, hp3, hp4⟩ :=
      print_msgs_spec p (st.received_msgs ++ [mkMsg p i]) st.printed_id st.output hl2 hc
    unfold RInv
    dsimp only
    refine ⟨?_, ?_, hp2, hp3, ?_⟩
    · intro x hx
      rcases List.mem_append.mp hx with h | h
      · obtain ⟨h1, h2, h3, h4⟩ := ha x h
        exact ⟨h1, h2, h3, List.mem_append_left _ h4⟩
      · rw [List.mem_singleton] at h
        subst h
        rw [hid]
        exact ⟨rfl, hi1, hiN,
          List.mem_append_right _ (List.mem_singleton.mpr rfl)⟩
    · intro x hx
      rcases List.mem_append.mp hx with h | h
      · cases hy : rLookup st.received_msgs x with
        | none => exact absurd hy (hb x h)
        | some y =>
          rw [rLookup_append_of_some hy]
          exact fun hz => Option.noConfusion hz
      · rw [List.mem_singleton] at h
        subst h
        rw [rLookup_append_of_none hnew, if_pos hid]
        exact fun hz => Option.noConfusion hz
    · intro j hj1 hj2
      by_cases hjp : j ≤ st.printed_id
      · cases hy : rLookup st.received_msgs j with
        | none => exact absurd hy (he j hj1 hjp)
        | some y =>
          rw [rLookup_append_of_some hy]
          exact fun hz => Option.noConfusion hz
      · exact hp4 j (by omega) hj2
  · rw [if_neg hnew]
    rw [hid] at hnew
    refine ⟨?_, ?_, hc, hd, he⟩
    · intro x hx
      obtain ⟨h1, h2, h3, h4⟩ := ha x hx
      exact ⟨h1, h2, h3, List.mem_append_left _ h4⟩
    · intro x hx
      rcases List.mem_append.mp hx with h | h
      · exact hb x h
      · rw [List.mem_singleton] at h
        subst h
        exact hnew

theorem RInv_fold (p : Nat → List Nat) (N : Nat) (rest : List Nat) :
    ∀ (seen : List Nat) (st : RState), RInv p N seen st →
      (∀ i ∈ rest, 1 ≤ i ∧ i ≤ N ∧ p i ≠ []) →
      RInv p N (seen ++ rest)
        (rest.foldl (fun s j => (handle_msg s (mkMsg p j)).1) st) := by
  induction rest with
  | nil =>
    intro seen st h _
    simpa using h
  | cons i rs ih =>
    intro seen st h hrest
    obtain ⟨hi1, hiN, hpi⟩ := hrest i (List.mem_cons_self i rs)
    have hstep := RInv_step p N seen st i h hi1 hiN hpi
    have hrec := ih (seen ++ [i]) _ hstep (fun j hj => hrest j (List.mem_cons_of_mem i hj))
    rw [List.append_assoc] at hrec
    simpa using hrec

theorem RInv_init (p : Nat → List Nat) (N : Nat) : RInv p N [] initReceiver := by
  refine ⟨?_, ?_, rfl, rfl, ?_⟩
  · intro m hm
    simp [initReceiver] at hm
  · intro x hx
    simp at hx
  · intro j hj1 hj2
    simp [initReceiver] at hj2
    omega

/-- C2: for every payload family `p` of valid (nonempty-payload) `Data`
messages with contiguous ids `1..N` and every arrival order — any list
of ids from `1..N` that contains each of them at least once, so
reordering and duplication are arbitrary — the bytes the receiver emits
to the local sink are exactly `p 1 ++ p 2 ++ ... ++ p N`, each payload
exactly once, with the emission cursor ending at `N`; duplicate
arrivals never cause re-emission. -/
theorem receiver_ordering (N : Nat) (p : Nat → List Nat) (arr : List Nat)
    (harr : ∀ i ∈ arr, 1 ≤ i ∧ i ≤ N ∧ p i ≠ [])
    (hall : ∀ i, 1 ≤ i → i ≤ N → i ∈ arr) :
    (runReceiver p arr).output = ((List.range N).map (fun k => p (k + 1))).flatten ∧
    (runReceiver p arr).printed_id = N := by
  have h := RInv_fold p N arr [] initReceiver (RInv_init p N) harr
  rw [List.nil_append] at h
  have hrun : runReceiver p arr =
      arr.foldl (fun s j => (handle_msg s (mkMsg p j)).1) initReceiver := rfl
  rw [← hrun] at h
  obtain ⟨ha, hb, hc, hd, he⟩ := h
  have hle : (runReceiver p arr).printed_id ≤ N := by
    rcases Nat.eq_zero_or_pos (runReceiver p arr).printed_id with h0 | h0
    · omega
    · have hne := he (runReceiver p arr).printed_id h0 (Nat.le_refl _)
      cases hx : rLookup (runReceiver p arr).received_msgs (runReceiver p arr).printed_id with
      | none => exact absurd hx hne
      | some m =>
        obtain ⟨hmem, hmid⟩ := rLookup_eq_some hx
        have := (ha m hmem).2.2.1
        omega
  have hge : N ≤ (runReceiver p arr).printed_id := by
    by_contra hlt
    push_neg at hlt
    have h2 : (runReceiver p arr).printed_id + 1 ∈ arr :=
      hall _ (by omega) (by omega)
    exact hb _ h2 hd
  have hpid : (runReceiver p arr).printed_id = N := Nat.le_antisymm hle hge
  exact ⟨by rw [hc, hpid], hpid⟩

/-- C2 witness: payloads `p k = [k]` with `N = 2`, arrival order
`[2, 1, 2]` — id 2 arrives first (buffered, nothing emitted), id 1
arrives (both are emitted in order), the duplicate of id 2 arrives last
(acknowledged, nothing re-emitted): the sink holds `[1] ++ [2]`. -/
theorem receiver_ordering_witness :
    (∀ i ∈ [2, 1, 2], 1 ≤ i ∧ i ≤ 2 ∧ (fun k => [k]) i ≠ ([] : List Nat)) ∧
    (runReceiver (fun k => [k]) [2, 1, 2]).output =
      ((List.range 2).map (fun k => (fun j => [j]) (k + 1))).flatten ∧
    (runReceiver (fun k => [k]) [2, 1, 2]).printed_id = 2 :=
  ⟨by decide,
   receiver_ordering 2 (fun k => [k]) [2, 1, 2] (by decide)
     (fun i h1 h2 => by interval_cases i <;> decide)⟩
